import Mathlib

/-!
Verification of the Topic Synchronization & Access Verification Engine
(discord-parser2).  The Python services are shallowly embedded:

* `TelegramBotService` state (`server_topics`, `topic_name_cache`, the
  durable json copy, the `startup_verification_done` flag and a counter of
  `create_forum_topic` calls) becomes `BotState`.
* Python dicts become insertion-ordered association lists with the exact
  dict semantics (assignment updates in place or appends, `del` removes,
  iteration follows insertion order).
* Network collaborators (Telegram API, Discord HTTP) become an explicit
  environment `Env` of oracles: `topicAlive` abstracts the outcome of
  `_topic_exists` (whose own body is modelled separately as
  `topicExistsImpl`), `getName` abstracts `get_forum_topic(...).name`,
  `createResult` gives the id returned by the n-th `create_forum_topic`
  call (`none` = the call raised), `supports` abstracts
  `_check_if_supergroup_with_topics`, `persistOk` tells whether the json
  dump in `_save_data` succeeds, and `isForum` abstracts the forum check in
  `get_all_forum_topics`.
-/

namespace DiscordParser

/-- Python-dict lookup on an insertion-ordered association list. -/
def alookup {α β : Type} [DecidableEq α] : List (α × β) → α → Option β
  | [], _ => none
  | (k, v) :: rest, key => if k = key then some v else alookup rest key

/-- Python-dict assignment `d[key] = val`: update the existing entry in
place, otherwise append at the end. -/
def ainsert {α β : Type} [DecidableEq α] : List (α × β) → α → β → List (α × β)
  | [], key, val => [(key, val)]
  | (k, v) :: rest, key, val =>
    if k = key then (k, val) :: rest else (k, v) :: ainsert rest key val

/-- Python-dict deletion `del d[key]` (identity when the key is absent,
matching the guarded deletes in the source). -/
def aerase {α β : Type} [DecidableEq α] : List (α × β) → α → List (α × β)
  | [], _ => []
  | (k, v) :: rest, key => if k = key then rest else (k, v) :: aerase rest key

/-- The scan `for srv, tid in items(): if tid == old: del d[srv]; break`
used by `startup_topic_verification`: remove the first entry with the given
value. -/
def aeraseByValue {α β : Type} [DecidableEq β] : List (α × β) → β → List (α × β)
  | [], _ => []
  | (k, v) :: rest, val => if v = val then rest else (k, v) :: aeraseByValue rest val

/-- First key mapped to a given value (the `for srv, tid ...: if tid ==
old_topic_id: ...; break` scan in `cleanup_invalid_topics`). -/
def firstKeyWithValue : List (String × Nat) → Nat → Option String
  | [], _ => none
  | (k, v) :: rest, val => if v = val then some k else firstKeyWithValue rest val

/-- The map `server_topics : server_name -> topic_id`. -/
abbrev Store := List (String × Nat)

/-- Environment of external collaborators (network oracles). -/
structure Env where
  /-- Outcome of `_check_if_supergroup_with_topics`. -/
  supports : Bool
  /-- Outcome of `_topic_exists(chat_id, t)` for topic id `t`. -/
  topicAlive : Nat → Bool
  /-- Result of `get_forum_topic(chat_id, t).name`; `none` = exception or falsy info. -/
  getName : Nat → Option String
  /-- The `create_forum_topic` result for the n-th creation call
  (`none` = the call raised). -/
  createResult : Nat → Option Nat
  /-- Whether the json dump in `_save_data` succeeds. -/
  persistOk : Bool
  /-- The `is_forum` check inside `get_all_forum_topics`. -/
  isForum : Bool

/-- State of `TelegramBotService` relevant to the Topic Store. -/
structure BotState where
  /-- Field `self.server_topics`. -/
  serverTopics : Store
  /-- Field `self.topic_name_cache` (`topic_id -> server_name`). -/
  topicNameCache : List (Nat × String)
  /-- The `topics` part of the durable json file last written by a
  successful `_save_data`. -/
  saved : Store
  /-- Field `self.startup_verification_done`. -/
  startupDone : Bool
  /-- Number of `create_forum_topic` calls issued so far (model
  bookkeeping used to index `Env.createResult`). -/
  created : Nat
  deriving DecidableEq

/-- Model of `_save_data`: dump to json; every exception is caught and only
logged, so on failure nothing changes and no error reaches the caller. -/
def saveData (e : Env) (s : BotState) : BotState :=
  if e.persistOk then { s with saved := s.serverTopics } else s

/-- The duplicate-name scan of `_get_or_create_topic_safe` (lines
230-244): look for another server whose live topic already bears this
server's display name `"🏰 " ++ name`; exceptions and name mismatches fall
through to the next entry. -/
def adoptScan (e : Env) (name : String) : Store → Option Nat
  | [] => none
  | (srv, tid) :: rest =>
    if srv ≠ name ∧ e.topicAlive tid = true then
      match e.getName tid with
      | some nm => if nm = "🏰 " ++ name then some tid else adoptScan e name rest
      | none => adoptScan e name rest
    else adoptScan e name rest

/-- Tail of the locked section of `_get_or_create_topic_safe`: the
supergroup check, the adopt-by-display-name scan, and topic creation. -/
def afterChecks (e : Env) (s : BotState) (name : String) : Option Nat × BotState :=
  if e.supports = false then (none, s)
  else
    match adoptScan e name s.serverTopics with
    | some tid =>
      let s := { s with
        serverTopics := ainsert s.serverTopics name tid,
        topicNameCache := ainsert s.topicNameCache tid name }
      (some tid, saveData e s)
    | none =>
      match e.createResult s.created with
      | some tid =>
        let s := { s with
          created := s.created + 1,
          serverTopics := ainsert s.serverTopics name tid,
          topicNameCache := ainsert s.topicNameCache tid name }
        (some tid, saveData e s)
      | none => (none, { s with created := s.created + 1 })

/-- Body of `with self.topic_creation_lock:` in
`_get_or_create_topic_safe`: double-check the cache, drop a confirmed-dead
mapping, then `afterChecks`. -/
def lockedSection (e : Env) (s : BotState) (name : String) : Option Nat × BotState :=
  match alookup s.serverTopics name with
  | some t =>
    if e.topicAlive t = true then (some t, s)
    else
      let s := { s with
        serverTopics := aerase s.serverTopics name,
        topicNameCache := aerase s.topicNameCache t }
      afterChecks e (saveData e s) name
  | none => afterChecks e s name

/-- The lock-free fast path of `_get_or_create_topic_safe`:
`some r` = return `r` immediately, `none` = fall through to the lock. -/
def fastPathStep (e : Env) (s : BotState) (name : String) : Option (Option Nat) :=
  match alookup s.serverTopics name with
  | some t => if e.topicAlive t = true then some (some t) else none
  | none => none

/-- Phase 1 of `startup_topic_verification`: walk a snapshot of
`server_topics`, collecting display names of live topics, recording dead
mappings, and (in the name-collision branch) closing the older topic and
deleting the entry that referenced it. -/
def startupScan (e : Env) :
    List (String × Nat) → List (String × Nat) → List String → Store → List Nat →
    List (String × Nat) × List String × Store × List Nat
  | [], valid, invalid, store, closed => (valid, invalid, store, closed)
  | (srv, tid) :: rest, valid, invalid, store, closed =>
    if e.topicAlive tid = true then
      let tname := "🏰 " ++ srv
      match alookup valid tname with
      | some old =>
        startupScan e rest (ainsert valid tname tid) invalid
          (aeraseByValue store old) (closed ++ [old])
      | none =>
        startupScan e rest (ainsert valid tname tid) invalid store closed
    else
      startupScan e rest valid (invalid ++ [srv]) store closed

/-- Model of `startup_topic_verification` (lines 68-145). -/
def startupVerification (e : Env) (s : BotState) : BotState :=
  if s.startupDone = true then s
  else if e.supports = false then { s with startupDone := true }
  else
    let r := startupScan e s.serverTopics [] [] s.serverTopics []
    let valid := r.1
    let invalid := r.2.1
    let store1 := r.2.2.1
    let store2 := invalid.foldl
      (fun st n => if (alookup st n).isSome then aerase st n else st) store1
    let cache2 := store2.foldl
      (fun ca (p : String × Nat) => ainsert ca p.2 p.1) ([] : List (Nat × String))
    let s1 := { s with serverTopics := store2, topicNameCache := cache2 }
    let s2 := if invalid ≠ [] ∨ valid.length ≠ store2.length then saveData e s1 else s1
    { s2 with startupDone := true }

/-- Model of `_get_or_create_topic_safe` (lines 189-267), sequential version. -/
def getOrCreate (e : Env) (s : BotState) (name : String) : Option Nat × BotState :=
  let s := if s.startupDone = false then startupVerification e s else s
  match fastPathStep e s name with
  | some r => (r, s)
  | none => lockedSection e s name

/-- Model of `get_server_topic_id` (lines 176-187). -/
def getServerTopicId (e : Env) (s : BotState) (name : String) : Option Nat × BotState :=
  let s := if s.startupDone = false then startupVerification e s else s
  (alookup s.serverTopics name, s)

/-- Phase 1 of `cleanup_invalid_topics`: walk a snapshot of
`server_topics` (the store itself — it is not mutated during this phase),
collecting the names of dead mappings into `invalid` and, in the
name-collision branch, closing the previously seen topic and marking the
first entry that referenced it as invalid.  `full` is the complete store
used by the inner `for srv, tid in list(...)` scan. -/
def cleanupScan (e : Env) (full : Store) :
    Store → List (String × Nat) → List String × List Nat
  | [], _ => ([], [])
  | (srv, tid) :: rest, valid =>
    if e.topicAlive tid = true then
      let tname := "🏰 " ++ srv
      match alookup valid tname with
      | some old =>
        let dupInvalid := match firstKeyWithValue full old with
          | some srv2 => [srv2]
          | none => []
        let r := cleanupScan e full rest (ainsert valid tname tid)
        (dupInvalid ++ r.1, old :: r.2)
      | none => cleanupScan e full rest (ainsert valid tname tid)
    else
      let r := cleanupScan e full rest valid
      (srv :: r.1, r.2)

/-- One step of the removal loop of `cleanup_invalid_topics`:
`if server_name in self.server_topics: del ...; del cache if present`. -/
def removalStep (p : Store × List (Nat × String)) (n : String) :
    Store × List (Nat × String) :=
  match alookup p.1 n with
  | some old => (aerase p.1 n, aerase p.2 old)
  | none => p

/-- Model of `cleanup_invalid_topics` (lines 421-464).  Returns the new state, the
returned count `len(invalid_topics)`, and the list of closed topic ids. -/
def cleanup (e : Env) (s : BotState) : BotState × Nat × List Nat :=
  let r := cleanupScan e s.serverTopics s.serverTopics []
  let invalid := r.1
  let closed := r.2
  let p := invalid.foldl removalStep (s.serverTopics, s.topicNameCache)
  let s1 := { s with serverTopics := p.1, topicNameCache := p.2 }
  let s2 := if invalid ≠ [] then saveData e s1 else s1
  (s2, invalid.length, closed)

/-- Python `topic_name.replace("🏰 ", "")`: remove every occurrence of the
two-character pattern castle-emoji-space. -/
def removeCastle : List Char → List Char
  | [] => []
  | '🏰' :: ' ' :: rest => removeCastle rest
  | c :: rest => c :: removeCastle rest

/-- Python `str.strip()` whitespace (the characters relevant here). -/
def isPySpace (c : Char) : Bool :=
  c = ' ' || c = '\t' || c = '\n' || c = '\r' || c = '\x0b' || c = '\x0c'

/-- Python `str.strip()`. -/
def trimChars (l : List Char) : List Char :=
  ((l.dropWhile isPySpace).reverse.dropWhile isPySpace).reverse

/-- The normalization `topic_name.replace("🏰 ", "").strip()` in `verify_existing_topics`. -/
def cleanName (s : String) : String :=
  ⟨trimChars (removeCastle s.data)⟩

/-- Model of `get_all_forum_topics` (discord_websocket.py lines 133-166): the
Telegram API offers no bulk listing, so the "live topics" map is built
from the store itself, keeping entries whose topic still exists and keyed
by topic id with the *server name* as its display name. -/
def getAllForumTopics (e : Env) (store : Store) : List (Nat × String) :=
  if e.isForum = false then []
  else store.foldl
    (fun acc (p : String × Nat) =>
      if e.topicAlive p.2 = true then ainsert acc p.2 p.1 else acc) []

/-- First loop of `verify_existing_topics`: walk the listed topics,
collecting normalized names, closing the earlier-seen topic on a
collision and repointing the store entry keyed by the normalized name if
it referenced the closed id. -/
def vetPhaseA :
    List (Nat × String) → List (String × Nat) → Store → List Nat →
    List (String × Nat) × Store × List Nat
  | [], names, store, closed => (names, store, closed)
  | (tid, tname) :: rest, names, store, closed =>
    let clean := cleanName tname
    match alookup names clean with
    | some old =>
      let store1 := match alookup store clean with
        | some cur => if cur = old then ainsert store clean tid else store
        | none => store
      vetPhaseA rest (ainsert names clean tid) store1 (closed ++ [old])
    | none => vetPhaseA rest (ainsert names clean tid) store closed

/-- Second loop of `verify_existing_topics`: sync the store against the
collected names — repoint drifted entries, drop entries whose name is not
among the listed topics.  The first argument iterates over a snapshot of
the store taken after phase A; the second is the store being mutated. -/
def vetPhaseB (names : List (String × Nat)) :
    List (String × Nat) → Store → Store
  | [], store => store
  | (srv, cached) :: rest, store =>
    match alookup names srv with
    | some actual =>
      vetPhaseB names rest (if cached ≠ actual then ainsert store srv actual else store)
    | none => vetPhaseB names rest (aerase store srv)

/-- Model of `verify_existing_topics` (discord_websocket.py lines 86-128).
Returns the new state and the list of topic ids it attempted to close. -/
def verifyExistingTopics (e : Env) (s : BotState) : BotState × List Nat :=
  let existing := getAllForumTopics e s.serverTopics
  let r := vetPhaseA existing [] s.serverTopics []
  let names := r.1
  let store1 := r.2.1
  let closed := r.2.2
  let store2 := vetPhaseB names store1 store1
  (saveData e { s with serverTopics := store2 }, closed)

/-- Result of the `get_forum_topic` call inside `_topic_exists`. -/
inductive ApiResult where
  /-- The call returned a topic object with the given `is_closed` flag. -/
  | topicInfo (closedFlag : Bool)
  /-- The call returned `None`. -/
  | noInfo
  /-- The call raised `telebot.apihelper.ApiException` with message `msg`. -/
  | apiErr (msg : String)
  /-- The call raised some non-API exception. -/
  | otherErr
  deriving DecidableEq

/-- ASCII lowering, the fragment of Python `str.lower()` exercised by the
error messages tested in `_topic_exists`. -/
def asciiLower (c : Char) : Char :=
  if 'A' ≤ c ∧ c ≤ 'Z' then Char.ofNat (c.toNat + 32) else c

/-- Python `needle in hay` substring test. -/
def containsSub (needle : List Char) : List Char → Bool
  | [] => needle.isEmpty
  | c :: rest => needle.isPrefixOf (c :: rest) || containsSub needle rest

/-- The test `"not found" in str(e).lower() or "thread not found" in
str(e).lower()` from `_topic_exists`. -/
def hasNotFound (msg : String) : Bool :=
  containsSub "not found".data (msg.data.map asciiLower) ||
  containsSub "thread not found".data (msg.data.map asciiLower)

/-- Model of `_topic_exists` (lines 156-174).  `topicId = none` models a `None`
thread id and `some 0` the other falsy id. -/
def topicExistsImpl (topicId : Option Nat) (resp : ApiResult) : Bool :=
  match topicId with
  | none => false
  | some 0 => false
  | some (_ + 1) =>
    match resp with
    | .topicInfo closedFlag => !closedFlag
    | .noInfo => false
    | .apiErr msg => if hasNotFound msg then false else true
    | .otherErr => false

/-- Python `text[i:i+4000] for i in range(0, len(text), 4000)`. -/
def chunks4000 (l : List Char) : List (List Char) :=
  if l = [] then [] else l.take 4000 :: chunks4000 (l.drop 4000)
termination_by l.length
decreasing_by
  simp only [List.length_drop]
  have : l.length ≠ 0 := by simpa [List.length_eq_zero] using (by assumption : ¬ l = [])
  omega

/-- Outcome of one `bot.send_message` call inside `_send_message`. -/
inductive SendOutcome where
  /-- The call succeeded and returned a message with this id. -/
  | sent (msgId : Nat)
  /-- It raised an error containing "message thread not found". -/
  | threadNotFound
  /-- It raised a "Too Many Requests" error. -/
  | rateLimited
  /-- It raised some other error. -/
  | otherFail
  deriving DecidableEq

/-- Environment of `_send_message`: the outcome of the k-th
`bot.send_message` call, and the result `_recreate_topic_if_missing`
would return (abstracting that helper's own store repair). -/
structure SendEnv where
  outcome : Nat → SendOutcome
  recreateResult : Option Nat

/-- Python truthiness of an optional integer (`None` and `0` are falsy). -/
def optTruthy : Option Nat → Bool
  | some (_ + 1) => true
  | _ => false

/-- Python truthiness of an optional string (`None` and `""` are falsy). -/
def strTruthy : Option String → Bool
  | some s => !s.isEmpty
  | none => false

/-- The `for attempt in range(max_retries)` loop of `_send_message` for
one chunk.  Result: `(control, next call counter, current thread id)`
where `control = some r` means `_send_message` returns `r` now and
`control = none` means the attempts were exhausted and the outer loop
moves to the next chunk. -/
def attemptLoop (e : SendEnv) (serverName : Option String) :
    Nat → Nat → Option Nat → Option (Option Nat) × Nat × Option Nat
  | 0, k, tid => (none, k, tid)
  | aLeft + 1, k, tid =>
    match e.outcome k with
    | .sent m => (some (some m), k + 1, tid)
    | .threadNotFound =>
      if strTruthy serverName = true ∧ optTruthy tid = true then
        match e.recreateResult with
        | some newId => attemptLoop e serverName aLeft (k + 1) (some newId)
        | none => attemptLoop e serverName aLeft (k + 1) none
      else if optTruthy tid = true then
        attemptLoop e serverName aLeft (k + 1) none
      else if aLeft = 0 then (some none, k + 1, tid)
      else attemptLoop e serverName aLeft (k + 1) tid
    | .rateLimited => attemptLoop e serverName aLeft (k + 1) tid
    | .otherFail =>
      if aLeft = 0 then (some none, k + 1, tid)
      else attemptLoop e serverName aLeft (k + 1) tid

/-- The outer `for chunk in ...` loop of `_send_message`; `delivered`
accumulates the chunks whose send succeeded. -/
def chunkLoop (e : SendEnv) (serverName : Option String) :
    List (List Char) → Nat → Option Nat → List (List Char) →
    Option Nat × List (List Char)
  | [], _, _, delivered => (none, delivered)
  | c :: rest, k, tid, delivered =>
    match attemptLoop e serverName 3 k tid with
    | (some r, _, _) => (r, delivered ++ if r.isSome then [c] else [])
    | (none, k1, tid1) => chunkLoop e serverName rest k1 tid1 delivered

/-- Model of `_send_message` (lines 356-419): returns the value Python returns and
the list of successfully delivered chunks. -/
def sendMessage (e : SendEnv) (text : List Char) (tid : Option Nat)
    (serverName : Option String) : Option Nat × List (List Char) :=
  chunkLoop e serverName (chunks4000 text) 0 tid []

/-- The inner loop of `check_server_verification` (app.py lines 440-461):
status 200 returns True, 403 returns False, anything else (including an
exception, modelled as `none`) falls through to the next channel; falling
off the loop returns False. -/
def verifyLoop (statusOf : Nat → Option Nat) : List Nat → Bool
  | [] => false
  | c :: rest =>
    match statusOf c with
    | some code =>
      if code = 200 then true
      else if code = 403 then false
      else verifyLoop statusOf rest
    | none => verifyLoop statusOf rest

/-- Model of `check_server_verification`: only `list(channels.keys())[:1]` — the
first channel — is ever probed. -/
def checkServerVerification (statusOf : Nat → Option Nat) (channels : List Nat) : Bool :=
  verifyLoop statusOf (channels.take 1)

/-- The per-pending-server decision of `NewServerHandler.run` (app.py
lines 606-617): forced admission once `verification_delay = 180` seconds
have elapsed, early admission via `check_server_verification` once 60
seconds have elapsed.  Times are in seconds. -/
def sweepDecision (statusOf : Nat → Option Nat) (channels : List Nat)
    (t0 now : Int) : Bool :=
  let elapsed := now - t0
  if 180 ≤ elapsed then true
  else if 60 ≤ elapsed then checkServerVerification statusOf channels
  else false

/-- The sweep loop admits a pending server at the first sweep whose
decision is true (afterwards it is marked processed and skipped). -/
def admissionSweep (statusOf : Nat → Option Nat) (channels : List Nat)
    (t0 : Int) (sweeps : List Int) : Option Int :=
  sweeps.find? (fun now => sweepDecision statusOf channels t0 now)

/-- Program counter of one concurrent caller of
`_get_or_create_topic_safe`: before the lock-free fast path, waiting on
`topic_creation_lock`, or returned with a value. -/
inductive Pc where
  | start : Pc
  | waiting : Pc
  | finished : Option Nat → Pc
  deriving DecidableEq

/-- The two concurrent callers of the creation guard. -/
inductive Caller where
  | A : Caller
  | B : Caller
  deriving DecidableEq

/-- Configuration of the two-caller system: the shared
`TelegramBotService` state and each caller's program counter. -/
structure CConfig where
  bot : BotState
  pcA : Pc
  pcB : Pc
  deriving DecidableEq

/-- One step of a single caller: the fast path reads the shared store
without the lock; the locked section runs atomically under
`topic_creation_lock`. -/
def callerStep (e : Env) (name : String) (s : BotState) : Pc → Pc × BotState
  | .start =>
    match fastPathStep e s name with
    | some r => (.finished r, s)
    | none => (.waiting, s)
  | .waiting =>
    let r := lockedSection e s name
    (.finished r.1, r.2)
  | .finished r => (.finished r, s)

/-- Scheduler step: run one step of the chosen caller. -/
def cstep (e : Env) (name : String) (c : CConfig) (p : Caller) : CConfig :=
  match p with
  | .A =>
    let r := callerStep e name c.bot c.pcA
    ⟨r.2, r.1, c.pcB⟩
  | .B =>
    let r := callerStep e name c.bot c.pcB
    ⟨r.2, c.pcA, r.1⟩

/-- Run the two-caller system under an arbitrary schedule. -/
def crun (e : Env) (name : String) (sched : List Caller) (c : CConfig) : CConfig :=
  sched.foldl (cstep e name) c

/-- An initially empty Topic Store (startup verification already done, as
it is on any run that reaches message processing). -/
def initBot : BotState :=
  { serverTopics := [], topicNameCache := [], saved := [], startupDone := true, created := 0 }

/-- Both callers about to run against the empty store. -/
def initConfig : CConfig := ⟨initBot, .start, .start⟩

/-- Invariant I1: two distinct sources never map to the same thread id. -/
def I1 (store : Store) : Prop :=
  ∀ a b ta tb, alookup store a = some ta → alookup store b = some tb →
    a ≠ b → ta ≠ tb

/-- Keys of the store are pairwise distinct (true of any Python dict). -/
def KeysNodup {α β : Type} (l : List (α × β)) : Prop :=
  (l.map Prod.fst).Nodup

/-- Status map refuting C7: channel 1 answers 403, channel 2 answers 200. -/
def chanStatusC7 : Nat → Option Nat :=
  fun c => if c = 1 then some 403 else some 200

/-- Send environment for the C9 witness: every send succeeds. -/
def sendEnvW : SendEnv := ⟨fun _ => .sent 7, none⟩

theorem chunks4000_of_ne (l : List Char) (h : l ≠ []) :
    chunks4000 l = l.take 4000 :: chunks4000 (l.drop 4000) := by
  rw [chunks4000]
  simp [h]

theorem verifyLoop_false (statusOf : Nat → Option Nat)
    (hprobe : ∀ c, statusOf c ≠ some 200) :
    ∀ l, verifyLoop statusOf l = false := by
  intro l
  induction l with
  | nil => rfl
  | cons c rest ih =>
    rw [verifyLoop]
    cases hc : statusOf c with
    | none => exact ih
    | some code =>
      have hcode : code ≠ 200 := by
        intro h
        exact hprobe c (by rw [hc, h])
      simp only [hcode, if_false]
      split
      · rfl
      · exact ih

/-- C10: `_topic_exists` returns False for every falsy topic id; a
Telegram API error whose message contains neither "not found" nor
"thread not found" makes it return True (the topic is presumed to exist);
any non-API exception makes it return False. -/
theorem topic_exists_error_classification (resp : ApiResult) (msg : String) (n : Nat) :
    topicExistsImpl none resp = false ∧
    topicExistsImpl (some 0) resp = false ∧
    (hasNotFound msg = false → topicExistsImpl (some (n + 1)) (.apiErr msg) = true) ∧
    topicExistsImpl (some (n + 1)) .otherErr = false := by
  refine ⟨rfl, rfl, ?_, rfl⟩
  intro h
  simp [topicExistsImpl, h]

theorem topic_exists_error_classification_witness :
    topicExistsImpl none .otherErr = false ∧
    topicExistsImpl (some 0) .otherErr = false ∧
    topicExistsImpl (some 5) (.apiErr "Bad Request: chat is restricted") = true ∧
    topicExistsImpl (some 5) .otherErr = false := by
  have h := topic_exists_error_classification .otherErr "Bad Request: chat is restricted" 4
  exact ⟨h.1, h.2.1, h.2.2.1 (by decide), h.2.2.2⟩

/-- C9: for a text longer than 4000 characters whose first chunk send
succeeds, `_send_message` returns right after that first send, so only
the first 4000 characters are ever delivered and the remaining chunks are
never sent. -/
theorem send_message_truncates (e : SendEnv) (text : List Char) (tid : Option Nat)
    (serverName : Option String) (m : Nat)
    (hlen : 4000 < text.length) (hfirst : e.outcome 0 = .sent m) :
    sendMessage e text tid serverName = (some m, [text.take 4000]) := by
  have hne : text ≠ [] := by
    intro h
    rw [h] at hlen
    simp at hlen
  rw [sendMessage, chunks4000_of_ne text hne]
  rw [chunkLoop]
  have ha : attemptLoop e serverName 3 0 tid = (some (some m), 1, tid) := by
    rw [attemptLoop, hfirst]
  rw [ha]
  simp

theorem send_message_truncates_witness :
    sendMessage sendEnvW (List.replicate 4001 'a') none none =
      (some 7, [(List.replicate 4001 'a').take 4000]) :=
  send_message_truncates sendEnvW (List.replicate 4001 'a') none none 7
    (by rw [List.length_replicate]; omega) rfl

/-- C6: a pending server created at `t0` with verification delay 180 for
which no probe ever succeeds is never admitted at a sweep before
`t0 + 180`, and is admitted exactly at the first sweep at or after
`t0 + 180`. -/
theorem admission_timing (statusOf : Nat → Option Nat) (channels : List Nat)
    (t0 : Int) (sweeps : List Int)
    (hprobe : ∀ c, statusOf c ≠ some 200) :
    (∀ t ∈ sweeps, sweepDecision statusOf channels t0 t = true → t0 + 180 ≤ t) ∧
    admissionSweep statusOf channels t0 sweeps =
      sweeps.find? (fun t => decide (t0 + 180 ≤ t)) := by
  have hck : checkServerVerification statusOf channels = false :=
    verifyLoop_false statusOf hprobe _
  have hdec : ∀ t, sweepDecision statusOf channels t0 t = decide (t0 + 180 ≤ t) := by
    intro t
    rw [sweepDecision]
    by_cases h1 : (180 : Int) ≤ t - t0
    · have h2 : t0 + 180 ≤ t := by omega
      simp [h1, h2]
    · have h2 : ¬ t0 + 180 ≤ t := by omega
      by_cases h3 : (60 : Int) ≤ t - t0
      · simp [h1, h3, hck, h2]
      · simp [h1, h3, h2]
  constructor
  · intro t _ ht
    rw [hdec t] at ht
    simpa using ht
  · rw [admissionSweep]
    congr 1
    funext t
    exact hdec t

theorem admission_timing_witness :
    ((∀ t ∈ [(30 : Int), 90, 150, 210], sweepDecision (fun _ => some 403) [1] 0 t = true →
        (0 : Int) + 180 ≤ t) ∧
     admissionSweep (fun _ => some 403) [1] 0 [30, 90, 150, 210] =
       [(30 : Int), 90, 150, 210].find? (fun t => decide ((0 : Int) + 180 ≤ t))) :=
  admission_timing (fun _ => some 403) [1] 0 [30, 90, 150, 210]
    (fun _ h => absurd (Option.some.inj h) (by decide))

/-- C7 counterexample: a pending source inside the early-verification
window (elapsed 90 seconds) whose first channel answers 403 is NOT
admitted, even though its second channel answers 200 — refuting the claim
that a successful probe of any one channel triggers early admission. -/
theorem early_admission_second_channel_refuted :
    sweepDecision chanStatusC7 [1, 2] 0 90 = false ∧
    chanStatusC7 2 = some 200 ∧
    ((60 : Int) ≤ 90 - 0 ∧ (90 : Int) - 0 < 180) :=
  ⟨by decide, by decide, by decide⟩

/-- C7 amended: during the early window (grace elapsed, delay not yet
elapsed) admission depends only on the FIRST listed channel: the pending
source is admitted iff probing its first channel returns HTTP 200; later
channels are never consulted. -/
theorem early_admission_first_channel_only (statusOf : Nat → Option Nat)
    (c : Nat) (rest : List Nat) (t0 now : Int)
    (hg : 60 ≤ now - t0) (hd : now - t0 < 180) :
    sweepDecision statusOf (c :: rest) t0 now = decide (statusOf c = some 200) := by
  rw [sweepDecision]
  have h1 : ¬ (180 : Int) ≤ now - t0 := by omega
  simp only [h1, if_false, hg, if_true, checkServerVerification, List.take, verifyLoop]
  cases hc : statusOf c with
  | none => simp
  | some code =>
    by_cases h200 : code = 200
    · simp [h200]
    · simp [h200]

theorem early_admission_first_channel_only_witness :
    sweepDecision (fun _ => some 200) [5, 6] 0 90 =
      decide ((fun _ : Nat => (some 200 : Option Nat)) 5 = some 200) :=
  early_admission_first_channel_only (fun _ => some 200) 5 [6] 0 90
    (by decide) (by decide)

theorem alookup_eq_none {α β : Type} [DecidableEq α] (l : List (α × β)) (a : α)
    (h : a ∉ l.map Prod.fst) : alookup l a = none := by
  induction l with
  | nil => rfl
  | cons p rest ih =>
    rw [alookup]
    have h1 : p.1 ≠ a := fun hh => h (by simp [hh.symm])
    rw [if_neg h1]
    exact ih (fun hh => h (by simp [hh]))

theorem alookup_ainsert {α β : Type} [DecidableEq α] (l : List (α × β)) (k : α) (v : β)
    (a : α) : alookup (ainsert l k v) a = if k = a then some v else alookup l a := by
  induction l with
  | nil =>
    rw [ainsert, alookup, alookup]
    by_cases h : k = a <;> simp [h, alookup]
  | cons p rest ih =>
    obtain ⟨k', v'⟩ := p
    rw [ainsert]
    by_cases h1 : k' = k
    · subst h1
      rw [if_pos rfl, alookup, alookup]
      by_cases h2 : k' = a <;> simp [h2]
    · rw [if_neg h1, alookup, alookup]
      by_cases h2 : k' = a
      · subst h2
        have hka : ¬ k = k' := fun hh => h1 hh.symm
        simp [hka]
      · simp [h2, ih]

theorem alookup_aerase {α β : Type} [DecidableEq α] (l : List (α × β))
    (hnd : KeysNodup l) (k a : α) :
    alookup (aerase l k) a = if k = a then none else alookup l a := by
  induction l with
  | nil =>
    rw [aerase, alookup]
    by_cases h : k = a <;> simp [h]
  | cons p rest ih =>
    obtain ⟨k', v'⟩ := p
    have hnd' : KeysNodup rest := (List.nodup_cons.mp hnd).2
    have hknotin : k' ∉ rest.map Prod.fst := (List.nodup_cons.mp hnd).1
    rw [aerase]
    by_cases h1 : k' = k
    · subst h1
      rw [if_pos rfl]
      by_cases h2 : k' = a
      · subst h2
        rw [if_pos rfl]
        exact alookup_eq_none rest k' hknotin
      · rw [if_neg (fun hh : k' = a => h2 hh), alookup, if_neg h2]
    · rw [if_neg h1, alookup, alookup]
      by_cases h2 : k' = a
      · subst h2
        have hka : ¬ k = k' := fun hh => h1 hh.symm
        simp [hka]
      · simp [h2, ih hnd']

theorem aerase_sublist {α β : Type} [DecidableEq α] (l : List (α × β)) (k : α) :
    List.Sublist (aerase l k) l := by
  induction l with
  | nil => simp [aerase]
  | cons p rest ih =>
    rw [aerase]
    split
    · exact List.sublist_cons_self p rest
    · exact List.Sublist.cons₂ p ih

theorem KeysNodup_aerase {α β : Type} [DecidableEq α] (l : List (α × β)) (k : α)
    (hnd : KeysNodup l) : KeysNodup (aerase l k) :=
  List.Nodup.sublist (List.Sublist.map Prod.fst (aerase_sublist l k)) hnd

theorem adoptScan_none (e : Env) (name : String)
    (hname : ∀ t, e.getName t ≠ some ("🏰 " ++ name)) :
    ∀ l, adoptScan e name l = none := by
  intro l
  induction l with
  | nil => rfl
  | cons p rest ih =>
    obtain ⟨srv, tid⟩ := p
    rw [adoptScan]
    split
    · cases hg : e.getName tid with
      | none => exact ih
      | some nm =>
        have hne : nm ≠ "🏰 " ++ name := fun h => hname tid (by rw [hg, h])
        simp [hne, ih]
    · exact ih

theorem saveData_serverTopics (e : Env) (s : BotState) :
    (saveData e s).serverTopics = s.serverTopics := by
  rw [saveData]
  split <;> rfl

theorem saveData_created (e : Env) (s : BotState) :
    (saveData e s).created = s.created := by
  rw [saveData]
  split <;> rfl

theorem saveData_saved_of_fail (e : Env) (s : BotState) (h : e.persistOk = false) :
    (saveData e s).saved = s.saved := by
  rw [saveData, h]
  rfl

theorem I1_ainsert_fresh (st : Store) (k : String) (v : Nat)
    (hI : I1 st) (hfresh : ∀ a, alookup st a ≠ some v) :
    I1 (ainsert st k v) := by
  intro a b ta tb ha hb hne
  rw [alookup_ainsert] at ha hb
  by_cases h1 : k = a
  · rw [if_pos h1] at ha
    by_cases h2 : k = b
    · exact absurd (h1.symm.trans h2) hne
    · rw [if_neg h2] at hb
      injection ha with ha'
      intro hEq
      exact hfresh b (by rw [hb, ← hEq, ← ha'])
  · rw [if_neg h1] at ha
    by_cases h2 : k = b
    · rw [if_pos h2] at hb
      injection hb with hb'
      intro hEq
      exact hfresh a (by rw [ha, hEq, ← hb'])
    · rw [if_neg h2] at hb
      exact hI a b ta tb ha hb hne

theorem I1_aerase (st : Store) (k : String) (hnd : KeysNodup st) (hI : I1 st) :
    I1 (aerase st k) := by
  intro a b ta tb ha hb hne
  rw [alookup_aerase st hnd] at ha hb
  by_cases h1 : k = a
  · rw [if_pos h1] at ha
    cases ha
  · rw [if_neg h1] at ha
    by_cases h2 : k = b
    · rw [if_pos h2] at hb
      cases hb
    · rw [if_neg h2] at hb
      exact hI a b ta tb ha hb hne

theorem not_value_aerase (st : Store) (k : String) (v : Nat) (hnd : KeysNodup st)
    (hfresh : ∀ a, alookup st a ≠ some v) :
    ∀ a, alookup (aerase st k) a ≠ some v := by
  intro a
  rw [alookup_aerase st hnd]
  by_cases h1 : k = a
  · simp [h1]
  · rw [if_neg h1]
    exact hfresh a

theorem I1_afterChecks (e : Env) (s : BotState) (name : String)
    (hI : I1 s.serverTopics)
    (hname : ∀ t, e.getName t ≠ some ("🏰 " ++ name))
    (hfresh : ∀ tid, e.createResult s.created = some tid →
      ∀ a, alookup s.serverTopics a ≠ some tid) :
    I1 (afterChecks e s name).2.serverTopics := by
  rw [afterChecks]
  cases hsb : e.supports with
  | false =>
    simp only [hsb, if_pos]
    exact hI
  | true =>
    simp only [hsb, Bool.true_eq_false, if_false]
    rw [adoptScan_none e name hname]
    cases hc : e.createResult s.created with
    | some tid =>
      simp only [saveData_serverTopics]
      exact I1_ainsert_fresh s.serverTopics name tid hI (hfresh tid hc)
    | none => exact hI

/-- Environment refuting C2: topic 5 is alive and its remote display name
is exactly the canonical name `"🏰 A"` of source `"A"`. -/
def envC2 : Env :=
  { supports := true, topicAlive := fun _ => true,
    getName := fun t => if t = 5 then some "🏰 A" else none,
    createResult := fun _ => none, persistOk := true, isForum := true }

/-- Store holding only `"B" ↦ 5` (startup verification done). -/
def stC2 : BotState :=
  { serverTopics := [("B", 5)], topicNameCache := [(5, "B")],
    saved := [("B", 5)], startupDone := true, created := 0 }

/-- Environment refuting C4: persistence always fails, topic creation
succeeds with id 42. -/
def envC4 : Env :=
  { supports := true, topicAlive := fun _ => true, getName := fun _ => none,
    createResult := fun _ => some 42, persistOk := false, isForum := true }

/-- C2 counterexample: on a store satisfying I1 where another source's
live topic already bears the display name of source `"A"`, the
adopt-existing-topic step of `_get_or_create_topic_safe` files `"A"`
under the same thread id 5 without removing `"B"`, leaving two distinct
keys mapped to one thread id — so I1 is NOT preserved. -/
theorem adopt_step_breaks_I1 :
    I1 stC2.serverTopics ∧
    (getOrCreate envC2 stC2 "A").2.serverTopics = [("B", 5), ("A", 5)] ∧
    ¬ I1 (getOrCreate envC2 stC2 "A").2.serverTopics := by
  refine ⟨?_, by decide, ?_⟩
  · intro a b ta tb ha hb hne
    rw [show stC2.serverTopics = [("B", 5)] from rfl, alookup] at ha hb
    by_cases h1 : "B" = a
    · by_cases h2 : "B" = b
      · exact absurd (h1.symm.trans h2) hne
      · rw [if_neg h2, alookup] at hb
        cases hb
    · rw [if_neg h1, alookup] at ha
      cases ha
  · intro h
    exact h "B" "A" 5 5 (by decide) (by decide) (by decide) rfl

/-- C2 amended: the stale-removal and fresh-creation steps of
`_get_or_create_topic_safe` do preserve I1 (given distinct dict keys, a
fresh created id, and no other live topic bearing this source's display
name — i.e. the adopt branch does not fire); the adopt step itself,
however, can break I1, as `adopt_step_breaks_I1` shows. -/
theorem I1_preserved_without_adopt (e : Env) (s : BotState) (name : String)
    (hI : I1 s.serverTopics)
    (hnd : KeysNodup s.serverTopics)
    (hstart : s.startupDone = true)
    (hname : ∀ t, e.getName t ≠ some ("🏰 " ++ name))
    (hfresh : ∀ tid, e.createResult s.created = some tid →
      ∀ a, alookup s.serverTopics a ≠ some tid) :
    I1 (getOrCreate e s name).2.serverTopics := by
  rw [getOrCreate]
  simp only [hstart, Bool.true_eq_false, if_false]
  cases hf : fastPathStep e s name with
  | some r => exact hI
  | none =>
    rw [lockedSection]
    cases hl : alookup s.serverTopics name with
    | some t =>
      have halive : e.topicAlive t = false := by
        by_contra hb
        rw [Bool.not_eq_false] at hb
        rw [fastPathStep, hl] at hf
        simp [hb] at hf
      simp only [halive, Bool.false_eq_true, if_false]
      apply I1_afterChecks
      · rw [saveData_serverTopics]
        exact I1_aerase s.serverTopics name hnd hI
      · exact hname
      · intro tid hc a
        rw [saveData_serverTopics]
        have hcreated : (saveData e
            { s with serverTopics := aerase s.serverTopics name,
                     topicNameCache := aerase s.topicNameCache t }).created
            = s.created := by
          rw [saveData_created]
        rw [hcreated] at hc
        exact not_value_aerase s.serverTopics name tid hnd (hfresh tid hc) a
    | none =>
      exact I1_afterChecks e s name hI hname hfresh

theorem I1_preserved_without_adopt_witness :
    I1 (getOrCreate envC4 initBot "A").2.serverTopics := by
  apply I1_preserved_without_adopt
  · intro a b ta tb ha hb hne
    rw [show initBot.serverTopics = [] from rfl, alookup] at ha
    cases ha
  · simp [initBot, KeysNodup]
  · rfl
  · intro t h
    have h' : (none : Option String) = some ("🏰 " ++ "A") := h
    cases h'
  · intro tid hc a h
    rw [show initBot.serverTopics = [] from rfl, alookup] at h
    cases h

/-- C4 counterexample: with a failing persistence layer,
`_get_or_create_topic_safe` still reports success (`some 42`) and keeps
the in-memory mutation, while the durable copy stays empty — no rollback,
no `PersistenceError`, silent divergence between memory and disk. -/
theorem persistence_failure_silent :
    (getOrCreate envC4 initBot "Alpha").1 = some 42 ∧
    (getOrCreate envC4 initBot "Alpha").2.serverTopics = [("Alpha", 42)] ∧
    (getOrCreate envC4 initBot "Alpha").2.saved = [] :=
  ⟨rfl, rfl, rfl⟩

/-- C4 amended: `_save_data` catches persistence failures and only logs
them: on the creation path of `_get_or_create_topic_safe` with a failing
persistence layer, the operation still returns the new thread id, the
in-memory mutation is retained (not rolled back), and the durable copy is
left unchanged — the caller gets no `PersistenceError` and memory and
disk silently diverge. -/
theorem save_failure_keeps_mutation (e : Env) (s : BotState) (name : String) (tid : Nat)
    (hp : e.persistOk = false)
    (hstart : s.startupDone = true)
    (hmiss : alookup s.serverTopics name = none)
    (hsup : e.supports = true)
    (hscan : adoptScan e name s.serverTopics = none)
    (hcr : e.createResult s.created = some tid) :
    (getOrCreate e s name).1 = some tid ∧
    (getOrCreate e s name).2.serverTopics = ainsert s.serverTopics name tid ∧
    (getOrCreate e s name).2.saved = s.saved := by
  rw [getOrCreate]
  simp only [hstart, Bool.true_eq_false, if_false]
  rw [fastPathStep, hmiss]
  rw [lockedSection, hmiss, afterChecks, hsup]
  simp only [Bool.true_eq_false, if_false]
  rw [hscan, hcr]
  refine ⟨rfl, ?_, ?_⟩
  · simp only [saveData_serverTopics]
  · rw [saveData_saved_of_fail e _ hp]

theorem save_failure_keeps_mutation_witness :
    (getOrCreate envC4 initBot "Alpha").1 = some 42 ∧
    (getOrCreate envC4 initBot "Alpha").2.serverTopics =
      ainsert initBot.serverTopics "Alpha" 42 ∧
    (getOrCreate envC4 initBot "Alpha").2.saved = initBot.saved :=
  save_failure_keeps_mutation envC4 initBot "Alpha" 42 rfl rfl rfl rfl rfl rfl

/-- Environment for the C8 counterexample: topic 7 no longer exists. -/
def envC8 : Env :=
  { supports := true, topicAlive := fun _ => false, getName := fun _ => none,
    createResult := fun _ => none, persistOk := true, isForum := true }

/-- State before startup verification with one (stale) cached mapping. -/
def stC8 : BotState :=
  { serverTopics := [("A", 7)], topicNameCache := [(7, "A")],
    saved := [("A", 7)], startupDone := false, created := 0 }

/-- C8 counterexample: before startup verification has completed,
`get_server_topic_id` is NOT a pure cache lookup — the call triggers
`startup_topic_verification`, which here removes the stale entry, so the
Topic Store state changes. -/
theorem get_topic_mutates_on_first_call :
    stC8.serverTopics = [("A", 7)] ∧
    (getServerTopicId envC8 stC8 "A").2.serverTopics = [] ∧
    (getServerTopicId envC8 stC8 "A").1 = none :=
  ⟨rfl, rfl, rfl⟩

/-- C8 amended: once startup verification has completed,
`get_server_topic_id` is a pure cache lookup: it returns the cached
thread id (or `None`) and leaves the whole service state unchanged;
before that, the first call triggers `startup_topic_verification`, which
may mutate the Topic Store (see `get_topic_mutates_on_first_call`). -/
theorem get_topic_pure_after_startup (e : Env) (s : BotState) (name : String)
    (h : s.startupDone = true) :
    getServerTopicId e s name = (alookup s.serverTopics name, s) := by
  rw [getServerTopicId]
  simp only [h, Bool.true_eq_false, if_false]

theorem get_topic_pure_after_startup_witness :
    getServerTopicId envC8 { stC8 with startupDone := true } "A" =
      (alookup ({ stC8 with startupDone := true } : BotState).serverTopics "A",
        { stC8 with startupDone := true }) :=
  get_topic_pure_after_startup envC8 { stC8 with startupDone := true } "A" rfl

theorem castle_append_inj (a b : String) (h : "🏰 " ++ a = "🏰 " ++ b) : a = b := by
  have hd := congrArg String.data h
  rw [String.data_append, String.data_append] at hd
  exact String.ext (List.append_cancel_left hd)

theorem mem_keys_ainsert {α β : Type} [DecidableEq α] (l : List (α × β)) (k : α) (v : β)
    (a : α) : a ∈ (ainsert l k v).map Prod.fst ↔ a ∈ l.map Prod.fst ∨ a = k := by
  induction l with
  | nil => simp [ainsert]
  | cons p rest ih =>
    obtain ⟨k', v'⟩ := p
    rw [ainsert]
    by_cases h1 : k' = k
    · subst h1
      simp
      tauto
    · simp only [if_neg h1, List.map_cons, List.mem_cons, ih]
      tauto

theorem cleanupScan_no_dups (e : Env) (full : Store) :
    ∀ (entries : Store) (valid : List (String × Nat)),
      KeysNodup entries →
      (∀ p ∈ entries, ("🏰 " ++ p.1) ∉ valid.map Prod.fst) →
      cleanupScan e full entries valid =
        ((entries.filter (fun p => !e.topicAlive p.2)).map Prod.fst, []) := by
  intro entries
  induction entries with
  | nil =>
    intro valid _ _
    rfl
  | cons p rest ih =>
    obtain ⟨srv, tid⟩ := p
    intro valid hnd hnotin
    have hnd' : KeysNodup rest := (List.nodup_cons.mp hnd).2
    have hsrvnotin : srv ∉ rest.map Prod.fst := (List.nodup_cons.mp hnd).1
    rw [cleanupScan]
    cases ha : e.topicAlive tid with
    | true =>
      simp only [ha, if_pos]
      have hlk : alookup valid ("🏰 " ++ srv) = none :=
        alookup_eq_none _ _ (hnotin (srv, tid) (by simp))
      rw [hlk]
      rw [ih (ainsert valid ("🏰 " ++ srv) tid) hnd' ?_]
      · simp [List.filter_cons, ha]
      · intro q hq
        rw [mem_keys_ainsert]
        rintro (hin | heq)
        · exact hnotin q (by simp [hq]) hin
        · have hq1 : q.1 = srv := castle_append_inj _ _ heq
          exact hsrvnotin (hq1 ▸ List.mem_map_of_mem Prod.fst hq)
    | false =>
      simp only [ha, Bool.false_eq_true, if_false]
      rw [ih valid hnd' (fun q hq => hnotin q (by simp [hq]))]
      simp [List.filter_cons, ha]

theorem removalFold_cons (k : String) (v : Nat) :
    ∀ (ks : List String) (st : Store) (ca : List (Nat × String)), k ∉ ks →
      ks.foldl removalStep ((k, v) :: st, ca) =
        ((k, v) :: (ks.foldl removalStep (st, ca)).1,
          (ks.foldl removalStep (st, ca)).2) := by
  intro ks
  induction ks with
  | nil =>
    intro st ca _
    rfl
  | cons n ks ih =>
    intro st ca hk
    have hnk : ¬ k = n := fun h => hk (h ▸ List.mem_cons_self n ks)
    have hktail : k ∉ ks := fun h => hk (List.mem_cons_of_mem n h)
    rw [List.foldl_cons, List.foldl_cons]
    cases ho : alookup st n with
    | some old =>
      have hlk : alookup ((k, v) :: st) n = some old := by
        rw [alookup, if_neg hnk]
        exact ho
      have her : aerase ((k, v) :: st) n = (k, v) :: aerase st n := by
        rw [aerase, if_neg hnk]
      have h1 : removalStep ((k, v) :: st, ca) n = ((k, v) :: aerase st n, aerase ca old) := by
        rw [removalStep]
        simp only [hlk, her]
      have h2 : removalStep (st, ca) n = (aerase st n, aerase ca old) := by
        rw [removalStep]
        simp only [ho]
      rw [h1, h2]
      exact ih _ _ hktail
    | none =>
      have hlk : alookup ((k, v) :: st) n = none := by
        rw [alookup, if_neg hnk]
        exact ho
      have h1 : removalStep ((k, v) :: st, ca) n = ((k, v) :: st, ca) := by
        rw [removalStep]
        simp only [hlk]
      have h2 : removalStep (st, ca) n = (st, ca) := by
        rw [removalStep]
        simp only [ho]
      rw [h1, h2]
      exact ih _ _ hktail

theorem removalFold_filter (e : Env) :
    ∀ (st : Store) (ca : List (Nat × String)), KeysNodup st →
      (((st.filter (fun p => !e.topicAlive p.2)).map Prod.fst).foldl
          removalStep (st, ca)).1 =
        st.filter (fun p => e.topicAlive p.2) := by
  intro st
  induction st with
  | nil =>
    intro ca _
    rfl
  | cons p rest ih =>
    obtain ⟨k, v⟩ := p
    intro ca hnd
    have hnd' : KeysNodup rest := (List.nodup_cons.mp hnd).2
    have hknotin : k ∉ rest.map Prod.fst := (List.nodup_cons.mp hnd).1
    cases ha : e.topicAlive v with
    | true =>
      have hfilter : ((k, v) :: rest).filter (fun p => !e.topicAlive p.2) =
          rest.filter (fun p => !e.topicAlive p.2) := by
        simp [List.filter_cons, ha]
      have hknot : k ∉ (rest.filter (fun p => !e.topicAlive p.2)).map Prod.fst := by
        intro hmem
        obtain ⟨q, hq, hq1⟩ := List.mem_map.mp hmem
        exact hknotin (hq1 ▸ List.mem_map_of_mem Prod.fst (List.mem_of_mem_filter hq))
      rw [hfilter, removalFold_cons k v _ rest ca hknot]
      simp only [ih ca hnd']
      simp [List.filter_cons, ha]
    | false =>
      have hfilter : ((k, v) :: rest).filter (fun p => !e.topicAlive p.2) =
          (k, v) :: rest.filter (fun p => !e.topicAlive p.2) := by
        simp [List.filter_cons, ha]
      rw [hfilter, List.map_cons, List.foldl_cons]
      have h1 : removalStep ((k, v) :: rest, ca) k = (rest, aerase ca v) := by
        rw [removalStep]
        have hlk : alookup ((k, v) :: rest) k = some v := by
          rw [alookup, if_pos rfl]
        have her : aerase ((k, v) :: rest) k = rest := by
          rw [aerase, if_pos rfl]
        simp only [hlk, her]
      rw [h1, ih (aerase ca v) hnd']
      simp [List.filter_cons, ha]

/-- C5: the reconciliation pass (`cleanup_invalid_topics`) is idempotent:
immediately re-running it with the same live-thread oracle removes
nothing, closes nothing, leaves the state untouched, and reports a count
of zero. -/
theorem cleanup_second_run_noop (e : Env) (s : BotState)
    (hnd : KeysNodup s.serverTopics) :
    cleanup e (cleanup e s).1 = ((cleanup e s).1, 0, []) := by
  have hscan1 : cleanupScan e s.serverTopics s.serverTopics [] =
      ((s.serverTopics.filter (fun p => !e.topicAlive p.2)).map Prod.fst, []) :=
    cleanupScan_no_dups e s.serverTopics s.serverTopics [] hnd (by simp)
  have hst1 : (cleanup e s).1.serverTopics =
      s.serverTopics.filter (fun p => e.topicAlive p.2) := by
    rw [cleanup]
    simp only [hscan1]
    split
    · rw [saveData_serverTopics]
      exact removalFold_filter e s.serverTopics s.topicNameCache hnd
    · exact removalFold_filter e s.serverTopics s.topicNameCache hnd
  have hnd1 : KeysNodup (cleanup e s).1.serverTopics := by
    rw [hst1]
    exact List.Nodup.sublist (List.Sublist.map Prod.fst (List.filter_sublist _)) hnd
  have hdead1 : (cleanup e s).1.serverTopics.filter (fun p => !e.topicAlive p.2) = [] := by
    rw [List.filter_eq_nil_iff]
    intro q hq
    rw [hst1] at hq
    have := (List.mem_filter.mp hq).2
    simp [this]
  have hscan2 : cleanupScan e (cleanup e s).1.serverTopics
      (cleanup e s).1.serverTopics [] = ([], []) := by
    rw [cleanupScan_no_dups e _ _ [] hnd1 (by simp), hdead1]
    rfl
  rw [cleanup, hscan2]
  rfl

theorem cleanup_second_run_noop_witness :
    cleanup envC8 (cleanup envC8 stC2).1 = ((cleanup envC8 stC2).1, 0, []) :=
  cleanup_second_run_noop envC8 stC2 (by simp [stC2, KeysNodup])

/-- Environment for the C3 counterexample: both topics alive, forum chat. -/
def envC3 : Env :=
  { supports := true, topicAlive := fun _ => true, getName := fun _ => none,
    createResult := fun _ => none, persistOk := true, isForum := true }

/-- Store with two entries whose keys normalize to the same display name
`"Beta"`; thread 1 was stored first (numerically lowest id). -/
def stC3 : BotState :=
  { serverTopics := [("Beta", 1), ("Beta ", 2)],
    topicNameCache := [(1, "Beta"), (2, "Beta ")],
    saved := [("Beta", 1), ("Beta ", 2)], startupDone := true, created := 0 }

/-- C3 counterexample: with duplicate entries `"Beta" ↦ 1` and
`"Beta " ↦ 2` (same normalized name), `verify_existing_topics` closes
thread 1 — the numerically-lowest, first-created id — and keeps thread 2,
the opposite of what the claim states. -/
theorem duplicate_collapse_keeps_later :
    (verifyExistingTopics envC3 stC3).2 = [1] ∧
    (verifyExistingTopics envC3 stC3).1.serverTopics = [("Beta", 2)] := by
  constructor <;> rfl

/-- C3 amended: when the duplicate-collapse pass finds two Store entries
(the first keyed by the normalized display name itself) whose thread ids
both still exist and whose keys normalize to the same display name, it
keeps the LATER-iterated (second) thread id — regardless of numeric
order — closes the first, repoints the normalized-name key to the kept
id, and the sync phase removes the other colliding entry, leaving exactly
one active mapping for that display name. -/
theorem duplicate_collapse_semantics (e : Env) (s : BotState)
    (n1 n2 : String) (t1 t2 : Nat)
    (hstore : s.serverTopics = [(n1, t1), (n2, t2)])
    (hforum : e.isForum = true)
    (ha1 : e.topicAlive t1 = true) (ha2 : e.topicAlive t2 = true)
    (hc1 : cleanName n1 = n1) (hc2 : cleanName n2 = n1)
    (hne : n2 ≠ n1) (htne : t1 ≠ t2) :
    (verifyExistingTopics e s).2 = [t1] ∧
    (verifyExistingTopics e s).1.serverTopics = [(n1, t2)] := by
  have hne' : ¬ n1 = n2 := fun h => hne h.symm
  have hG : getAllForumTopics e s.serverTopics = [(t1, n1), (t2, n2)] := by
    rw [getAllForumTopics, hforum, hstore]
    simp [ainsert, ha1, ha2, htne]
  have hA : vetPhaseA [(t1, n1), (t2, n2)] [] s.serverTopics [] =
      ([(n1, t2)], [(n1, t2), (n2, t2)], [t1]) := by
    rw [vetPhaseA, hc1]
    simp only [alookup]
    rw [vetPhaseA, hc2]
    simp only [ainsert, alookup, if_pos]
    rw [hstore]
    simp only [alookup, if_pos]
    simp [ainsert, vetPhaseA]
  have hB : vetPhaseB [(n1, t2)] [(n1, t2), (n2, t2)] [(n1, t2), (n2, t2)] =
      [(n1, t2)] := by
    rw [vetPhaseB]
    simp only [alookup, if_pos]
    rw [vetPhaseB]
    simp only [alookup, if_neg hne']
    simp [aerase, hne', vetPhaseB]
  rw [verifyExistingTopics, hG, hA]
  simp only [hB, saveData_serverTopics]
  exact ⟨trivial, trivial⟩

theorem duplicate_collapse_semantics_witness :
    (verifyExistingTopics envC3 stC3).2 = [1] ∧
    (verifyExistingTopics envC3 stC3).1.serverTopics = [("Beta", 2)] :=
  duplicate_collapse_semantics envC3 stC3 "Beta" "Beta " 1 2 rfl rfl rfl rfl
    (by decide) (by decide) (by decide) (by decide)

/-- Program counters a caller can have before any topic exists. -/
def okPcEarly (p : Pc) : Prop := p = .start ∨ p = .waiting

/-- Program counters a caller can have once the topic `tid` exists. -/
def okPcLate (tid : Nat) (p : Pc) : Prop :=
  p = .start ∨ p = .waiting ∨ p = .finished (some tid)

/-- Invariant of the two-caller creation-guard system: either no topic
has been created yet (empty store, no caller finished), or exactly one
topic `tid` exists, the store maps the source to it, and any finished
caller returned it. -/
def C1Inv (name : String) (tid : Nat) (c : CConfig) : Prop :=
  (c.bot.serverTopics = [] ∧ c.bot.created = 0 ∧
    okPcEarly c.pcA ∧ okPcEarly c.pcB) ∨
  (c.bot.serverTopics = [(name, tid)] ∧ c.bot.created = 1 ∧
    okPcLate tid c.pcA ∧ okPcLate tid c.pcB)

theorem okPcEarly_late (tid : Nat) (p : Pc) (h : okPcEarly p) : okPcLate tid p := by
  rcases h with h | h
  · exact Or.inl h
  · exact Or.inr (Or.inl h)

theorem fastPath_empty (e : Env) (name : String) (s : BotState)
    (hst : s.serverTopics = []) : fastPathStep e s name = none := by
  rw [fastPathStep, hst]
  rfl

theorem fastPath_present (e : Env) (name : String) (tid : Nat) (s : BotState)
    (halive : e.topicAlive tid = true) (hst : s.serverTopics = [(name, tid)]) :
    fastPathStep e s name = some (some tid) := by
  rw [fastPathStep, hst]
  simp [alookup, halive]

theorem locked_empty (e : Env) (name : String) (tid : Nat) (s : BotState)
    (hsup : e.supports = true) (hcr0 : e.createResult 0 = some tid)
    (hst : s.serverTopics = []) (hcr : s.created = 0) :
    (lockedSection e s name).1 = some tid ∧
    (lockedSection e s name).2.serverTopics = [(name, tid)] ∧
    (lockedSection e s name).2.created = 1 := by
  rw [lockedSection, hst]
  simp only [alookup]
  rw [afterChecks, hsup]
  simp only [Bool.true_eq_false, if_false]
  rw [hst]
  simp only [adoptScan]
  rw [hcr, hcr0]
  simp only [saveData_serverTopics, saveData_created]
  exact ⟨trivial, rfl, trivial⟩

theorem locked_present (e : Env) (name : String) (tid : Nat) (s : BotState)
    (halive : e.topicAlive tid = true) (hst : s.serverTopics = [(name, tid)]) :
    lockedSection e s name = (some tid, s) := by
  rw [lockedSection, hst]
  simp [alookup, halive]

theorem step_from_early (e : Env) (name : String) (tid : Nat) (s : BotState) (pc : Pc)
    (hsup : e.supports = true) (hcr0 : e.createResult 0 = some tid)
    (hst : s.serverTopics = []) (hcr : s.created = 0) (hpc : okPcEarly pc) :
    ((callerStep e name s pc).2.serverTopics = [] ∧
      (callerStep e name s pc).2.created = 0 ∧
      okPcEarly (callerStep e name s pc).1) ∨
    ((callerStep e name s pc).2.serverTopics = [(name, tid)] ∧
      (callerStep e name s pc).2.created = 1 ∧
      okPcLate tid (callerStep e name s pc).1) := by
  rcases hpc with h | h <;> subst h
  · left
    rw [callerStep, fastPath_empty e name s hst]
    exact ⟨hst, hcr, Or.inr rfl⟩
  · right
    obtain ⟨h1, h2, h3⟩ := locked_empty e name tid s hsup hcr0 hst hcr
    rw [callerStep]
    exact ⟨h2, h3, Or.inr (Or.inr (by rw [h1]))⟩

theorem step_from_late (e : Env) (name : String) (tid : Nat) (s : BotState) (pc : Pc)
    (halive : e.topicAlive tid = true)
    (hst : s.serverTopics = [(name, tid)]) (hcr : s.created = 1) (hpc : okPcLate tid pc) :
    (callerStep e name s pc).2.serverTopics = [(name, tid)] ∧
    (callerStep e name s pc).2.created = 1 ∧
    okPcLate tid (callerStep e name s pc).1 := by
  rcases hpc with h | h | h <;> subst h
  · rw [callerStep, fastPath_present e name tid s halive hst]
    exact ⟨hst, hcr, Or.inr (Or.inr rfl)⟩
  · rw [callerStep, locked_present e name tid s halive hst]
    exact ⟨hst, hcr, Or.inr (Or.inr rfl)⟩
  · rw [callerStep]
    exact ⟨hst, hcr, Or.inr (Or.inr rfl)⟩

theorem C1Inv_step (e : Env) (name : String) (tid : Nat)
    (hsup : e.supports = true) (hcr0 : e.createResult 0 = some tid)
    (halive : e.topicAlive tid = true)
    (c : CConfig) (p : Caller) (h : C1Inv name tid c) :
    C1Inv name tid (cstep e name c p) := by
  cases p with
  | A =>
    rcases h with ⟨hst, hcr, hA, hB⟩ | ⟨hst, hcr, hA, hB⟩
    · rcases step_from_early e name tid c.bot c.pcA hsup hcr0 hst hcr hA with
        ⟨h1, h2, h3⟩ | ⟨h1, h2, h3⟩
      · exact Or.inl ⟨h1, h2, h3, hB⟩
      · exact Or.inr ⟨h1, h2, h3, okPcEarly_late tid c.pcB hB⟩
    · obtain ⟨h1, h2, h3⟩ := step_from_late e name tid c.bot c.pcA halive hst hcr hA
      exact Or.inr ⟨h1, h2, h3, hB⟩
  | B =>
    rcases h with ⟨hst, hcr, hA, hB⟩ | ⟨hst, hcr, hA, hB⟩
    · rcases step_from_early e name tid c.bot c.pcB hsup hcr0 hst hcr hB with
        ⟨h1, h2, h3⟩ | ⟨h1, h2, h3⟩
      · exact Or.inl ⟨h1, h2, hA, h3⟩
      · exact Or.inr ⟨h1, h2, okPcEarly_late tid c.pcA hA, h3⟩
    · obtain ⟨h1, h2, h3⟩ := step_from_late e name tid c.bot c.pcB halive hst hcr hB
      exact Or.inr ⟨h1, h2, hA, h3⟩

theorem C1Inv_run (e : Env) (name : String) (tid : Nat)
    (hsup : e.supports = true) (hcr0 : e.createResult 0 = some tid)
    (halive : e.topicAlive tid = true) :
    ∀ (sched : List Caller) (c : CConfig), C1Inv name tid c →
      C1Inv name tid (crun e name sched c) := by
  intro sched
  induction sched with
  | nil =>
    intro c h
    exact h
  | cons p rest ih =>
    intro c h
    rw [crun, List.foldl_cons]
    exact ih _ (C1Inv_step e name tid hsup hcr0 halive c p h)

/-- C1: starting from an empty Topic Store, two concurrent invocations of
`_get_or_create_topic_safe` for the same source, under any interleaving
of the lock-free fast path and the lock-serialized critical section, both
return the same thread id; afterwards the Store holds exactly the one
entry `name ↦ tid` and exactly one `create_forum_topic` call was made. -/
theorem concurrent_get_or_create_single_topic (e : Env) (name : String) (tid : Nat)
    (hsup : e.supports = true) (hcr0 : e.createResult 0 = some tid)
    (halive : e.topicAlive tid = true)
    (sched : List Caller) (ra rb : Option Nat)
    (ha : (crun e name sched initConfig).pcA = .finished ra)
    (hb : (crun e name sched initConfig).pcB = .finished rb) :
    ra = some tid ∧ rb = some tid ∧
    (crun e name sched initConfig).bot.serverTopics = [(name, tid)] ∧
    (crun e name sched initConfig).bot.created = 1 := by
  have hinit : C1Inv name tid initConfig :=
    Or.inl ⟨rfl, rfl, Or.inl rfl, Or.inl rfl⟩
  have hinv := C1Inv_run e name tid hsup hcr0 halive sched initConfig hinit
  rcases hinv with ⟨_, _, hA, hB⟩ | ⟨hst, hcr, hA, hB⟩
  · rcases hA with h | h <;> rw [ha] at h <;> cases h
  · refine ⟨?_, ?_, hst, hcr⟩
    · rcases hA with h | h | h
      · rw [ha] at h
        cases h
      · rw [ha] at h
        cases h
      · rw [ha] at h
        exact Pc.finished.inj h
    · rcases hB with h | h | h
      · rw [hb] at h
        cases h
      · rw [hb] at h
        cases h
      · rw [hb] at h
        exact Pc.finished.inj h

theorem concurrent_get_or_create_single_topic_witness :
    (some 42 : Option Nat) = some 42 ∧ (some 42 : Option Nat) = some 42 ∧
    (crun envC4 "Alpha" [.A, .A, .B] initConfig).bot.serverTopics = [("Alpha", 42)] ∧
    (crun envC4 "Alpha" [.A, .A, .B] initConfig).bot.created = 1 :=
  concurrent_get_or_create_single_topic envC4 "Alpha" 42 rfl rfl rfl
    [.A, .A, .B] (some 42) (some 42) (by decide) (by decide)

end DiscordParser
